import Mathlib

/-!
Shallow embedding of `src/osuT5/dataset/ors_dataset.py` (OliBomby/osuT5):
the windowing, time-normalization, token-packing, frame-padding,
empty-sequence filtering and interleaving-multiplexer logic of the ORS
dataset pipeline, together with proofs settling the frozen claims about it.

Modelling conventions: Python floats appearing in time arithmetic are
modelled over `ℚ`; Python (unbounded) ints over `Int`; `torch` integer
tensors over `List Int`; `random` draws are explicit arguments; fallible
or fuel-bounded loops carry an explicit fuel that is always instantiated
with the same quantity the source evaluates (`len(...)` at call entry).
-/

namespace OsuT5

/- The kernel-level arithmetic on `ℚ` is used to evaluate concrete
witnesses and counterexamples; these core operations are `irreducible` by
default, which only blocks `decide`, not soundness. -/
attribute [local semireducible] Rat.mul Rat.sub Rat.add Rat.inv

/-- Constant `STEPS_PER_MILLISECOND = 0.1` from the source. -/
def STEPS_PER_MILLISECOND : ℚ := 1 / 10

/-- Constant `LABEL_IGNORE_ID = -100` from the source. -/
def LABEL_IGNORE_ID : Int := -100

/-- Python `int()` applied to a real quantity: truncation toward zero.
`Int.div` uses the T-rounding (truncation) convention, and a `Rat` is kept
in lowest terms with a positive denominator, so `q.num.div q.den` is
exactly `⌈q⌉` for negative `q` and `⌊q⌋` otherwise. -/
def pyInt (q : ℚ) : Int := Int.tdiv q.num q.den

/-- Modelled from the spec: the event-type enumeration of the external
`osuT5.tokenizer` module (which is not under `src/`). The spec describes a
closed enumeration including `TIME_SHIFT` and the four curve-anchor kinds;
`circle` stands for the remaining (non-shift, non-anchor) kinds, whose
members the embedded code never inspects individually. -/
inductive EventType where
  | timeShift
  | bezierAnchor
  | perfectAnchor
  | catmullAnchor
  | redAnchor
  | circle
deriving DecidableEq, Repr

/-- Modelled from the spec: an `Event` is a typed symbolic token
`{type, value}`; for `TIME_SHIFT` the value is a time (in milliseconds
before normalization). -/
structure Event where
  type : EventType
  value : ℚ
deriving DecidableEq, Repr

/-- Membership test `event.type in [EventType.BEZIER_ANCHOR,
EventType.PERFECT_ANCHOR, EventType.CATMULL_ANCHOR, EventType.RED_ANCHOR]`
from `_trim_time_shifts`. -/
def isAnchor (t : EventType) : Bool :=
  match t with
  | .bezierAnchor | .perfectAnchor | .catmullAnchor | .redAnchor => true
  | _ => false

/-- First loop of `process` in `_trim_time_shifts`: every `TIME_SHIFT`
event is replaced (never mutated in place) by a fresh event whose value is
`int((event.value - start_time) * STEPS_PER_MILLISECOND)`. -/
def rewriteTimeShifts (events : List Event) (start_time : ℚ) : List Event :=
  events.map fun e =>
    if e.type = EventType.timeShift then
      { type := EventType.timeShift
        value := ((pyInt ((e.value - start_time) * STEPS_PER_MILLISECOND) : Int) : ℚ) }
    else e

/-- State-passing form of the second loop of `process` in
`_trim_time_shifts`, which scans the list from its last index down to 0
carrying the `delete_next_time_shift` flag and deletes, at the current
index, any `TIME_SHIFT` met while the flag is set (clearing it), setting
the flag at any curve-anchor event. `goFlag l f` processes `l` given that
the flag has value `f` after all elements to the right of `l` were
processed; it returns the kept elements of `l` (in order) and the final
flag value. Deleting at the current index does not affect indices still to
be visited, so this right fold is the loop's exact behaviour. -/
def goFlag : List Event → Bool → List Event × Bool
  | [], f => ([], f)
  | e :: rest, f =>
    let r := goFlag rest f
    if e.type = EventType.timeShift ∧ r.2 = true then (r.1, false)
    else if isAnchor e.type then (e :: r.1, true)
    else (e :: r.1, r.2)

/-- The anchor-cleanup pass of `_trim_time_shifts` (its reverse loop run to
completion, starting with `delete_next_time_shift = False`). -/
def removeAnchorShifts (events : List Event) : List Event :=
  (goFlag events false).1

/-- `process` from `_trim_time_shifts`: rewrite the time shifts, then run
the anchor-cleanup pass. -/
def processEvents (events : List Event) (start_time : ℚ) : List Event :=
  removeAnchorShifts (rewriteTimeShifts events start_time)

/-- Value of the `delete_next_time_shift` flag after the reverse loop has
processed exactly the given suffix (having started on it with the flag
cleared): set iff the first shift-or-anchor event of the suffix is an
anchor. -/
def pendingAnchor : List Event → Bool
  | [] => false
  | e :: rest =>
    if isAnchor e.type then true
    else if e.type = EventType.timeShift then false
    else pendingAnchor rest

/-- No `TIME_SHIFT` of the list is deletable by the anchor-cleanup pass:
for every `TIME_SHIFT`, the events strictly after it do not start (up to
irrelevant events) with an anchor. -/
def noDeletableShift : List Event → Bool
  | [] => true
  | e :: rest =>
    (if e.type = EventType.timeShift then !pendingAnchor rest else true)
      && noDeletableShift rest

/-- The `Window` record as produced by `_create_sequences`, restricted to
the fields `_trim_time_shifts` reads: the window start time and the three
attached event lists (`events`, optional `pre_events`, optional
`other_events`). -/
structure EventWindow where
  time : ℚ
  events : List Event
  pre_events : Option (List Event)
  other_events : Option (List Event)
deriving DecidableEq, Repr

/-- The same record after `_trim_time_shifts` consumed the `time` field. -/
structure TrimmedWindow where
  events : List Event
  pre_events : Option (List Event)
  other_events : Option (List Event)
deriving DecidableEq, Repr

/-- `_trim_time_shifts`: apply `process` with the window start time to
`events`, and to `pre_events` / `other_events` when present, consuming
`time`. -/
def trimTimeShifts (w : EventWindow) : TrimmedWindow :=
  { events := processEvents w.events w.time
    pre_events := w.pre_events.map (fun l => processEvents l w.time)
    other_events := w.other_events.map (fun l => processEvents l w.time) }

/-- The event lists attached to a window (main, pre-context, guide). -/
def attachedLists (w : EventWindow) : List (List Event) :=
  [w.events] ++ w.pre_events.toList ++ w.other_events.toList

/-- The event lists attached to a trimmed window. -/
def trimmedLists (t : TrimmedWindow) : List (List Event) :=
  [t.events] ++ t.pre_events.toList ++ t.other_events.toList

/-- An event list is fully normalized for a second pass at start time 0:
every `TIME_SHIFT` value is 0 and no shift is deletable. -/
def windowListOk (l : List Event) : Bool :=
  (l.all fun e => if e.type = EventType.timeShift then e.value == 0 else true)
    && noDeletableShift l

/-- Lift `windowListOk` to an optional event list. -/
def optListOk : Option (List Event) → Bool
  | none => true
  | some l => windowListOk l

/-! ### Frame segmentation (`_get_frames`) and frame windows (`_create_sequences`) -/

/-- Fuel-indexed reshape of a sample list into consecutive rows of width
`hop` (`np.reshape(samples, (-1, hop_length))` in `_get_frames`). The fuel
only bounds the recursion depth; `chunkList` instantiates it with the list
length, which suffices whenever `0 < hop`. -/
def chunkGo (hop : Nat) : Nat → List ℚ → List (List ℚ)
  | _, [] => []
  | 0, _ :: _ => []
  | fuel + 1, x :: xs => (x :: xs).take hop :: chunkGo hop fuel ((x :: xs).drop hop)

/-- Reshape a list into consecutive rows of width `hop`. -/
def chunkList (hop : Nat) (l : List ℚ) : List (List ℚ) :=
  chunkGo hop l.length l

/-- Frame segmentation from `_get_frames`:
`samples = np.pad(samples, [0, hop_length - len(samples) % hop_length])`
followed by the reshape into rows of width `hop_length`. The companion
`frame_times` array is not modelled (no claim consumes it), and
`hop_length = 0` would raise `ZeroDivisionError` in the source, so all
theorems assume `0 < hop`. -/
def getFrames (hop : Nat) (samples : List ℚ) : List (List ℚ) :=
  chunkList hop (samples ++ List.replicate (hop - samples.length % hop) 0)

/-- Fuel-indexed `range(offset, n_frames, frame_seq_len)` from the split
loop of `_create_sequences`; `windowStarts` instantiates the fuel with
`n_frames`, which suffices whenever `0 < frame_seq_len` (for
`frame_seq_len = 0` the source would raise `ValueError`). -/
def windowStartsGo (fsl n : Nat) : Nat → Nat → List Nat
  | 0, _ => []
  | fuel + 1, s => if s < n then s :: windowStartsGo fsl n fuel (s + fsl) else []

/-- The list of `frame_start_idx` values visited by the split loop of
`_create_sequences`. -/
def windowStarts (fsl n offset : Nat) : List Nat :=
  windowStartsGo fsl n n offset

/-- The frame windows produced by the split loop of `_create_sequences`:
for each start `fs`, the slice `frames[fs:fe]` with
`fe = min(fs + frame_seq_len, n_frames)`. -/
def createWindows (fsl : Nat) (frames : List (List ℚ)) (offset : Nat) :
    List (List (List ℚ)) :=
  (windowStarts fsl frames.length offset).map fun s =>
    (frames.drop s).take (min (s + fsl) frames.length - s)

/-! ### Configuration and tokenizer -/

/-- The configuration fields of `args : DictConfig` consumed by the
embedded functions. -/
structure Args where
  src_seq_len : Nat
  tgt_seq_len : Nat
  hop_length : Nat
  special_token_len : Nat
  center_pad_decoder : Bool
  max_pre_token_len : Int
  add_pre_tokens : Bool
  diff_token_index : Int
  style_token_index : Int
  timing_random_offset : Int
  class_dropout_prob : ℚ
  diff_dropout_prob : ℚ

/-- `self.frame_seq_len = args.src_seq_len - 1` from
`BeatmapDatasetIterable.__init__` (configurations have `src_seq_len ≥ 1`,
where `Nat` and Python subtraction agree). -/
def frameSeqLen (a : Args) : Nat := a.src_seq_len - 1

/-- `self.pre_token_len = args.tgt_seq_len // 2`. -/
def preTokenLen (a : Args) : Nat := a.tgt_seq_len / 2

/-- `self.min_pre_token_len = 4`. -/
def minPreTokenLen : Nat := 4

/-- The support of `offset = random.randint(0, self.frame_seq_len)` in
`_create_sequences`: `randint` is inclusive at both ends. -/
def offsetChoices (a : Args) : List Nat := List.range (frameSeqLen a + 1)

/-- Modelled from the spec: the encoder contract of the external
`Tokenizer` (not under `src/`): reserved ids, the `TIME_SHIFT` id range
(`event_start[EventType.TIME_SHIFT]` / `event_end[...]`, the only range
the embedded code consumes), and the scalar encoders. -/
structure Tokenizer where
  pad_id : Int
  sos_id : Int
  eos_id : Int
  style_unk : Int
  diff_unk : Int
  num_classes : Int
  event_start_ts : Int
  event_end_ts : Int
  encode_style_idx : Int → Int
  encode_diff : ℚ → Int

/-! ### Token packing (`_pad_and_split_token_sequence`) -/

/-- The token fields of a sequence record entering
`_pad_and_split_token_sequence` (after `_tokenize_sequence`):
`tokens = [sos] ++ encoded events ++ [eos]`, optional `pre_tokens` and
`other_tokens`, and the four side-channel tokens. The `other_*` token
fields exist in the record exactly when `other_tokens` does; they are
carried unconditionally here and read only under `o > 0`, as in the
source. -/
structure TokSeq where
  tokens : List Int
  pre_tokens : Option (List Int)
  other_tokens : Option (List Int)
  difficulty_token : Int
  beatmap_idx_token : Int
  other_difficulty_token : Int
  other_beatmap_idx_token : Int

/-- `num_pre_tokens` as computed at the top of
`_pad_and_split_token_sequence` (note it reads `self.args.add_pre_tokens`,
not the curriculum flag). -/
def numPreTokens (a : Args) (s : TokSeq) : Int :=
  let base : Int := if a.add_pre_tokens then ((s.pre_tokens.getD []).length : Int) else 0
  if 0 < a.max_pre_token_len then min base a.max_pre_token_len else base

/-- `num_other_tokens = len(other_tokens) + stl if "other_tokens" in sequence else 0`. -/
def numOtherTokens (a : Args) (s : TokSeq) : Int :=
  match s.other_tokens with
  | some ot => (ot.length : Int) + (a.special_token_len : Int)
  | none => 0

/-- The main-token budget `n` of `_pad_and_split_token_sequence`
(center-pad and left-aligned modes). -/
def packN (a : Args) (s : TokSeq) : Int :=
  if a.center_pad_decoder then
    min ((a.tgt_seq_len : Int) - (preTokenLen a : Int)) ((s.tokens.length : Int) - 1)
  else
    min ((a.tgt_seq_len : Int) - (a.special_token_len : Int)
          - min (minPreTokenLen : Int) (numPreTokens a s))
        ((s.tokens.length : Int) - 1)

/-- The pre-context budget `m` of `_pad_and_split_token_sequence`. -/
def packM (a : Args) (s : TokSeq) : Int :=
  if a.center_pad_decoder then
    min ((preTokenLen a : Int) - (a.special_token_len : Int)) (numPreTokens a s)
  else
    min ((a.tgt_seq_len : Int) - packN a s - (a.special_token_len : Int)) (numPreTokens a s)

/-- The guide-context budget `o` of `_pad_and_split_token_sequence`. -/
def packO (a : Args) (s : TokSeq) : Int :=
  if a.center_pad_decoder then
    min ((preTokenLen a : Int) - packM a s - (a.special_token_len : Int)) (numOtherTokens a s)
  else
    min ((a.tgt_seq_len : Int) - packN a s - (a.special_token_len : Int) - packM a s)
        (numOtherTokens a s)

/-- The initial `start_index` of `_pad_and_split_token_sequence` (before
`start_index += o`). -/
def packStart0 (a : Args) (s : TokSeq) : Int :=
  if a.center_pad_decoder then
    (preTokenLen a : Int) - packM a s - (a.special_token_len : Int) - packO a s
  else 0

/-- Slice assignment `l[st : st + src.length] = src` on a fixed-length
buffer (`torch` tensors reject shape mismatches, which the source never
produces; this translation instead clamps the write and always preserves
the buffer length). -/
def setSlice (l : List Int) (st : Nat) (src : List Int) : List Int :=
  l.take st ++ src.take (l.length - st) ++ l.drop (st + src.length)

/-- `setSlice` with the start index as a Python int (the source only
reaches nonnegative starts). -/
def setSliceI (l : List Int) (st : Int) (src : List Int) : List Int :=
  setSlice l st.toNat src

/-- Single-cell assignment `l[i] = v` (the source only reaches
`0 ≤ i < l.length`). -/
def setAtI (l : List Int) (i : Int) (v : Int) : List Int :=
  l.set i.toNat v

/-- Python `l[:n]` for `0 ≤ n` (the only regime the source reaches). -/
def pyTakeI (l : List Int) (n : Int) : List Int := l.take n.toNat

/-- Python `tokens[1 : n+1]` for `0 ≤ n`. -/
def pySliceOne (l : List Int) (n : Int) : List Int := (l.drop 1).take n.toNat

/-- Python `pre_tokens[-m:]` for `0 < m` (the only guard under which the
source evaluates it). -/
def pyTakeLast (l : List Int) (m : Int) : List Int := l.drop (l.length - m.toNat)

/-- The final fixed-size outputs of `_pad_and_split_token_sequence`. -/
structure Packed where
  decoder_input_ids : List Int
  decoder_attention_mask : List Bool
  labels : List Int
deriving DecidableEq, Repr

/-- The `input_tokens` buffer of `_pad_and_split_token_sequence` after its
initialization with `pad_id`. -/
def packInput0 (a : Args) (tk : Tokenizer) : List Int :=
  List.replicate a.tgt_seq_len tk.pad_id

/-- The `input_tokens` buffer after the `if o > 0` guide-segment block. -/
def packInput1 (a : Args) (tk : Tokenizer) (s : TokSeq) : List Int :=
  let stl := a.special_token_len
  let o := packO a s
  let start0 := packStart0 a s
  if 0 < o then
    let i1 := if 0 ≤ a.diff_token_index then
        setAtI (packInput0 a tk) (start0 + a.diff_token_index) s.other_difficulty_token
      else packInput0 a tk
    let i2 := if 0 ≤ a.style_token_index then
        setAtI i1 (start0 + a.style_token_index) s.other_beatmap_idx_token else i1
    if (stl : Int) < o then
      setSliceI i2 (start0 + (stl : Int)) (pyTakeI (s.other_tokens.getD []) (o - (stl : Int)))
    else i2
  else packInput0 a tk

/-- The `input_tokens` buffer after the main-segment side-channel writes
(here `start_index` has become `packStart0 + o`). -/
def packInput3 (a : Args) (tk : Tokenizer) (s : TokSeq) : List Int :=
  let start1 := packStart0 a s + packO a s
  let i2 := if 0 ≤ a.diff_token_index then
      setAtI (packInput1 a tk s) (start1 + a.diff_token_index) s.difficulty_token
    else packInput1 a tk s
  if 0 ≤ a.style_token_index then
    setAtI i2 (start1 + a.style_token_index) s.beatmap_idx_token
  else i2

/-- The `input_tokens` buffer after the `if m > 0` pre-context copy. -/
def packInput4 (a : Args) (tk : Tokenizer) (s : TokSeq) : List Int :=
  if 0 < packM a s then
    setSliceI (packInput3 a tk s) (packStart0 a s + packO a s + (a.special_token_len : Int))
      (pyTakeLast (s.pre_tokens.getD []) (packM a s))
  else packInput3 a tk s

/-- The buffer position at which the main tokens `tokens[:n]` are copied
(`start_index + m + stl` after `start_index += o`). -/
def packMainStart (a : Args) (s : TokSeq) : Int :=
  packStart0 a s + packO a s + packM a s + (a.special_token_len : Int)

/-- The `input_tokens` buffer after the main-token copy
`input_tokens[start_index + m + stl : start_index + m + stl + n] = tokens[:n]`. -/
def packInput5 (a : Args) (tk : Tokenizer) (s : TokSeq) : List Int :=
  setSliceI (packInput4 a tk s) (packMainStart a s) (pyTakeI s.tokens (packN a s))

/-- The `label_tokens` buffer: initialized with `LABEL_IGNORE_ID`, then
`label_tokens[start_index + m + stl : start_index + m + stl + n] = tokens[1:n+1]`. -/
def packLabels (a : Args) (s : TokSeq) : List Int :=
  setSliceI (List.replicate a.tgt_seq_len LABEL_IGNORE_ID) (packMainStart a s)
    (pySliceOne s.tokens (packN a s))

/-- The `input_tokens` buffer after the timing-jitter augmentation, which
shifts every id lying in the `TIME_SHIFT` id range by the draw `joff`
(clamped back into the range) and is applied only when
`timing_random_offset > 0`. -/
def packInput6 (a : Args) (tk : Tokenizer) (s : TokSeq) (joff : Int) : List Int :=
  if 0 < a.timing_random_offset then
    (packInput5 a tk s).map fun t =>
      if tk.event_start_ts ≤ t ∧ t < tk.event_end_ts then
        min (max (t + joff) tk.event_start_ts) (tk.event_end_ts - 1)
      else t
  else packInput5 a tk s

/-- `_pad_and_split_token_sequence`. The single `random` draw of the
timing-jitter step, `offset = random.randint(-timing_random_offset,
frame_seq_len)`, is the explicit argument `joff`; the stages of the
source's `input_tokens` mutation are `packInput0/1/3/4/5/6` above. -/
def padAndSplitTokenSequence (a : Args) (tk : Tokenizer) (s : TokSeq) (joff : Int) : Packed :=
  { decoder_input_ids := packInput6 a tk s joff
    decoder_attention_mask := (packInput6 a tk s joff).map (fun t => t != tk.pad_id)
    labels := packLabels a s }

/-! ### Frame padding (`_pad_frame_sequence`) -/

/-- `_pad_frame_sequence`: pad (with zero rows) or truncate the window's
frame rows to exactly `frame_seq_len` rows, then flatten. `w` is the row
width `frames.shape[-1]`. -/
def padFrameSequence (fsl w : Nat) (frames : List (List ℚ)) : List ℚ :=
  if frames.length ≠ fsl then
    (frames.take (min fsl frames.length)
      ++ List.replicate (fsl - min fsl frames.length) (List.replicate w 0)).flatten
  else frames.flatten

/-! ### Empty-sequence filter (`_get_next_beatmap`) -/

/-- Label test of the empty-sequence filter in `_get_next_beatmap`:
`((labels == eos_id) | (labels == pad_id)).all()`. -/
def allEosOrPad (tk : Tokenizer) (labels : List Int) : Bool :=
  labels.all fun t => t == tk.eos_id || t == tk.pad_id

/-- The emission loop's filter in `_get_next_beatmap`: a packed window is
skipped (`continue`) iff `not self.add_empty_sequences` and its labels all
equal the eos id or the pad id; the others are yielded in order. -/
def filterEmptySequences (add_empty : Bool) (tk : Tokenizer) (seqs : List Packed) :
    List Packed :=
  seqs.filter fun s => !(!add_empty && allEosOrPad tk s.labels)

/-! ### Class/difficulty dropout (`_tokenize_sequence`) -/

/-- The dropout assignments of `_tokenize_sequence` (source lines 384-391)
for the main beatmap: three independent `random.random()` draws
`r1, r2, r3 ∈ [0,1)` produce the style side-channel token
(`beatmap_idx_token`), the difficulty token, and the emitted
`beatmap_idx`; each is kept iff its draw is `≥` the dropout probability. -/
def tokenizeDropout (a : Args) (tk : Tokenizer) (beatmap_idx : Int) (difficulty : ℚ)
    (r1 r2 r3 : ℚ) : Int × Int × Int :=
  ( if a.class_dropout_prob ≤ r1 then tk.encode_style_idx beatmap_idx else tk.style_unk,
    if a.diff_dropout_prob ≤ r2 then tk.encode_diff difficulty else tk.diff_unk,
    if a.class_dropout_prob ≤ r3 then beatmap_idx else tk.num_classes )

/-! ### Interleaving multiplexer (`InterleavingBeatmapDatasetIterable`) -/

/-- A live sub-iterator of the multiplexer: a tag (generator identity; the
constructor builds pairwise distinct iterator objects) together with the
items it has yet to yield. -/
abbrev Worker (α : Type) := Nat × List α

/-- Outcome of one `__next__` call on the multiplexer: an item together
with the updated live-worker list and index, normal exhaustion
(`StopIteration`), or any other exception (`ZeroDivisionError` from
`index % len(workers)` when the worker list is empty mid-loop). -/
inductive StepRes (α : Type) where
  | item : α → List (Worker α) → Nat → StepRes α
  | stop : List (Worker α) → Nat → StepRes α
  | error : StepRes α
deriving Repr

/-- Python `list.remove(w)`: delete the first element equal to `w`. -/
def removeFirst [DecidableEq α] : List (Worker α) → Worker α → List (Worker α)
  | [], _ => []
  | x :: xs, w => if x = w then xs else x :: removeFirst xs w

/-- The `for _ in range(num)` loop body of
`InterleavingBeatmapDatasetIterable.__next__`: at each iteration the index
is reduced mod the current worker count, the indexed worker is polled, and
on `StopIteration` it is removed (by `list.remove`, i.e. first-equal) and
the loop continues. The fuel is the loop bound `num`. -/
def stepGo [DecidableEq α] : Nat → List (Worker α) → Nat → StepRes α
  | 0, ws, i => .stop ws i
  | fuel + 1, ws, i =>
    if ws.length = 0 then .error
    else
      let j := i % ws.length
      match ws.getD j (0, []) with
      | (wid, []) => stepGo fuel (removeFirst ws (wid, [])) j
      | (wid, a :: rest) => .item a (ws.set j (wid, rest)) (j + 1)

/-- One `__next__` call: the loop bound `num` is `len(self.workers)` at
call entry. -/
def muxNext [DecidableEq α] (ws : List (Worker α)) (i : Nat) : StepRes α :=
  stepGo ws.length ws i

/-- How a full consumption of the multiplexer ended. -/
inductive DrainEnd where
  | clean
  | error
  | fuelOut
deriving DecidableEq, Repr

/-- Repeatedly call `__next__` until termination, collecting the yielded
items in order; the fuel bounds the number of calls. -/
def drain [DecidableEq α] : Nat → List (Worker α) → Nat → List α × DrainEnd
  | 0, _, _ => ([], .fuelOut)
  | fuel + 1, ws, i =>
    match muxNext ws i with
    | .item a ws2 i2 =>
      let r := drain fuel ws2 i2
      (a :: r.1, r.2)
    | .stop _ _ => ([], .clean)
    | .error => ([], .error)

/-- The worker tags. -/
def idsOf (ws : List (Worker α)) : List Nat := ws.map Prod.fst

/-- All items still held by the workers, in worker order. -/
def itemsOf (ws : List (Worker α)) : List α := (ws.map Prod.snd).flatten

/-- Total number of items still held by the workers. -/
def totalItems (ws : List (Worker α)) : Nat := (itemsOf ws).length

/-! ## Lemmas about the anchor-cleanup pass -/

theorem goFlag_append (a b : List Event) (f : Bool) :
    goFlag (a ++ b) f =
      ((goFlag a (goFlag b f).2).1 ++ (goFlag b f).1,
        (goFlag a (goFlag b f).2).2) := by
  induction a with
  | nil => simp [goFlag]
  | cons e rest ih =>
    simp only [List.cons_append, goFlag, List.append_eq]
    rw [ih]
    by_cases h1 : e.type = EventType.timeShift ∧ (goFlag rest (goFlag b f).2).2 = true
    · simp [h1]
    · by_cases h2 : isAnchor e.type = true
      · simp [h1, h2]
      · simp [h1, h2]

theorem goFlag_false_flag (l : List Event) :
    (goFlag l false).2 = pendingAnchor l := by
  induction l with
  | nil => simp [goFlag, pendingAnchor]
  | cons e rest ih =>
    simp only [goFlag, pendingAnchor]
    by_cases h1 : e.type = EventType.timeShift ∧ (goFlag rest false).2 = true
    · have hna : isAnchor e.type = false := by rw [h1.1]; rfl
      simp [h1, hna, h1.1, isAnchor]
    · by_cases h2 : isAnchor e.type = true
      · have hne : e.type ≠ EventType.timeShift := by
          intro hh; rw [hh] at h2; simp [isAnchor] at h2
        simp [h1, h2, hne]
      · by_cases h3 : e.type = EventType.timeShift
        · have h4 : (goFlag rest false).2 = false := by
            cases hb : (goFlag rest false).2
            · rfl
            · exact absurd ⟨h3, hb⟩ h1
          simp [h1, h2, h3, h4, isAnchor]
        · simp [h1, h2, h3, ih]

theorem goFlag_of_noDeletable (l : List Event) (h : noDeletableShift l = true) :
    goFlag l false = (l, pendingAnchor l) := by
  induction l with
  | nil => simp [goFlag, pendingAnchor]
  | cons e rest ih =>
    simp only [noDeletableShift, Bool.and_eq_true] at h
    have hrest := ih h.2
    simp only [goFlag, pendingAnchor, hrest]
    by_cases h3 : e.type = EventType.timeShift
    · have hpa : pendingAnchor rest = false := by
        have h5 := h.1
        rw [if_pos h3] at h5
        simpa using h5
      have hna : isAnchor e.type = false := by rw [h3]; rfl
      simp [h3, hpa, hna, isAnchor]
    · by_cases h2 : isAnchor e.type = true
      · simp [h3, h2]
      · simp [h3, h2]

theorem goFlag_irrelevant (l : List Event) (f : Bool)
    (h : ∀ e ∈ l, e.type ≠ EventType.timeShift ∧ isAnchor e.type = false) :
    goFlag l f = (l, f) := by
  induction l with
  | nil => rfl
  | cons e rest ih =>
    have he := h e (List.mem_cons_self ..)
    have hrest := ih fun x hx => h x (List.mem_cons_of_mem _ hx)
    simp [goFlag, hrest, he.1, he.2]

theorem removeAnchorShifts_of_noDeletable (l : List Event)
    (h : noDeletableShift l = true) : removeAnchorShifts l = l := by
  simp [removeAnchorShifts, goFlag_of_noDeletable l h]

/-! ## C6 -/

/-- C6 (corrected): in the anchor-cleanup pass, for an event list of the
form `l1 ++ [TIME_SHIFT] ++ l2 ++ [anchor] ++ l3` where `l2` contains no
shift and no anchor, the deleted `TIME_SHIFT` is the one immediately
PRECEDING the anchor in forward order (the anchor itself and everything
after it survive into the recursively cleaned remainder), not the shift
following the anchor as the claim states. -/
theorem c6_anchor_deletes_preceding_shift
    (l1 l2 l3 : List Event) (tv : ℚ) (ae : Event)
    (h2 : ∀ e ∈ l2, e.type ≠ EventType.timeShift ∧ isAnchor e.type = false)
    (ha : isAnchor ae.type = true) :
    removeAnchorShifts (l1 ++ ⟨EventType.timeShift, tv⟩ :: (l2 ++ ae :: l3)) =
      removeAnchorShifts l1 ++ (l2 ++ ae :: removeAnchorShifts l3) := by
  have hts : ae.type ≠ EventType.timeShift := by
    intro hh; rw [hh] at ha; simp [isAnchor] at ha
  have hae : goFlag (ae :: l3) false = (ae :: (goFlag l3 false).1, true) := by
    simp [goFlag, hts, ha]
  have hmid : goFlag (l2 ++ ae :: l3) false
      = (l2 ++ ae :: (goFlag l3 false).1, true) := by
    rw [goFlag_append, hae, goFlag_irrelevant l2 true h2]
  have hb : goFlag (⟨EventType.timeShift, tv⟩ :: (l2 ++ ae :: l3)) false
      = (l2 ++ ae :: (goFlag l3 false).1, false) := by
    simp [goFlag, hmid]
  unfold removeAnchorShifts
  rw [goFlag_append, hb]

/-- C6 counterexample: on `[TIME_SHIFT 1, BEZIER_ANCHOR, TIME_SHIFT 2]` the
cleanup pass deletes the shift of value 1 that precedes the anchor; the
shift of value 2 immediately following the anchor, which the claim says is
the one deleted, survives. -/
theorem c6_following_shift_counterexample :
    removeAnchorShifts
        [⟨EventType.timeShift, 1⟩, ⟨EventType.bezierAnchor, 0⟩, ⟨EventType.timeShift, 2⟩]
      = [⟨EventType.bezierAnchor, 0⟩, ⟨EventType.timeShift, 2⟩] ∧
    (⟨EventType.timeShift, 2⟩ : Event) ∈ removeAnchorShifts
        [⟨EventType.timeShift, 1⟩, ⟨EventType.bezierAnchor, 0⟩, ⟨EventType.timeShift, 2⟩] ∧
    (⟨EventType.timeShift, 1⟩ : Event) ∉ removeAnchorShifts
        [⟨EventType.timeShift, 1⟩, ⟨EventType.bezierAnchor, 0⟩, ⟨EventType.timeShift, 2⟩] := by
  decide

/-- C6 witness: the amended statement evaluated on a concrete list. -/
theorem c6_anchor_deletes_preceding_shift_witness :
    (∀ e ∈ [(⟨EventType.circle, 7⟩ : Event)],
        e.type ≠ EventType.timeShift ∧ isAnchor e.type = false) ∧
    isAnchor (⟨EventType.bezierAnchor, 0⟩ : Event).type = true ∧
    removeAnchorShifts ([⟨EventType.circle, 9⟩] ++ ⟨EventType.timeShift, 1⟩ ::
        ([⟨EventType.circle, 7⟩] ++ ⟨EventType.bezierAnchor, 0⟩ :: [⟨EventType.timeShift, 3⟩]))
      = removeAnchorShifts [⟨EventType.circle, 9⟩] ++
          ([⟨EventType.circle, 7⟩] ++ ⟨EventType.bezierAnchor, 0⟩ ::
            removeAnchorShifts [⟨EventType.timeShift, 3⟩]) :=
  ⟨by decide, by decide,
    c6_anchor_deletes_preceding_shift [⟨EventType.circle, 9⟩] [⟨EventType.circle, 7⟩]
      [⟨EventType.timeShift, 3⟩] 1 ⟨EventType.bezierAnchor, 0⟩ (by decide) (by decide)⟩

/-! ## C4 -/

/-- C4 (corrected): during time normalization every `TIME_SHIFT` value of
every attached event list is rewritten to
`int((original - window_start) * STEPS_PER_MILLISECOND)` — truncation
toward zero, NOT rounding to the nearest integer — and `_trim_time_shifts`
applies exactly this rewrite (followed by the anchor-cleanup pass) to the
main, pre-context and guide lists. -/
theorem c4_rewrite_truncates (w : EventWindow) (L : List Event)
    (hL : L ∈ attachedLists w) (i : Nat) (e : Event)
    (hi : L[i]? = some e) (ht : e.type = EventType.timeShift) :
    (rewriteTimeShifts L w.time)[i]? =
      some ⟨EventType.timeShift,
        ((pyInt ((e.value - w.time) * STEPS_PER_MILLISECOND) : Int) : ℚ)⟩ ∧
    trimmedLists (trimTimeShifts w) =
      (attachedLists w).map (fun l => removeAnchorShifts (rewriteTimeShifts l w.time)) := by
  constructor
  · simp [rewriteTimeShifts, List.getElem?_map, hi, ht]
  · cases w with
    | mk time events pre other =>
      cases pre <;> cases other <;>
        simp [trimmedLists, trimTimeShifts, attachedLists, processEvents]

/-- C4 counterexample: a `TIME_SHIFT` at 16 ms with window start 0 is
rewritten to value 1 (`int(1.6)`), while the claim's
`round((16 - 0) * 0.1)` is 2. -/
theorem c4_round_counterexample :
    rewriteTimeShifts [⟨EventType.timeShift, 16⟩] 0 = [⟨EventType.timeShift, 1⟩] ∧
    round (((16 : ℚ) - 0) * STEPS_PER_MILLISECOND) = (2 : ℤ) ∧
    ((1 : ℚ) ≠ (2 : ℚ)) := by
  refine ⟨by decide, ?_, by norm_num⟩
  norm_num [round_eq, STEPS_PER_MILLISECOND]

/-- C4 witness: the amended statement evaluated on a concrete window. -/
theorem c4_rewrite_truncates_witness :
    ([(⟨EventType.timeShift, 16⟩ : Event)] ∈
        attachedLists ⟨0, [⟨EventType.timeShift, 16⟩], none, none⟩) ∧
    ([(⟨EventType.timeShift, 16⟩ : Event)])[0]? = some ⟨EventType.timeShift, 16⟩ ∧
    (⟨EventType.timeShift, (16 : ℚ)⟩ : Event).type = EventType.timeShift ∧
    ((rewriteTimeShifts [⟨EventType.timeShift, 16⟩]
        (EventWindow.mk 0 [⟨EventType.timeShift, 16⟩] none none).time)[0]? =
      some ⟨EventType.timeShift,
        ((pyInt (((16 : ℚ) - (EventWindow.mk 0 [⟨EventType.timeShift, 16⟩] none none).time)
            * STEPS_PER_MILLISECOND) : Int) : ℚ)⟩ ∧
      trimmedLists (trimTimeShifts ⟨0, [⟨EventType.timeShift, 16⟩], none, none⟩) =
        (attachedLists ⟨0, [⟨EventType.timeShift, 16⟩], none, none⟩).map
          (fun l => removeAnchorShifts (rewriteTimeShifts l
            (EventWindow.mk 0 [⟨EventType.timeShift, 16⟩] none none).time))) :=
  ⟨by decide, by decide, by decide,
    c4_rewrite_truncates ⟨0, [⟨EventType.timeShift, 16⟩], none, none⟩
      [⟨EventType.timeShift, 16⟩] (by decide) 0 ⟨EventType.timeShift, 16⟩
      (by decide) (by decide)⟩

/-! ## C7 -/

theorem rewriteTimeShifts_zero (l : List Event)
    (h : ∀ e ∈ l, e.type = EventType.timeShift → e.value = 0) :
    rewriteTimeShifts l 0 = l := by
  induction l with
  | nil => rfl
  | cons e rest ih =>
    have he := h e (List.mem_cons_self ..)
    have hrest := ih fun x hx hxt => h x (List.mem_cons_of_mem _ hx) hxt
    simp only [rewriteTimeShifts, List.map_cons] at hrest ⊢
    refine congrArg₂ (· :: ·) ?_ hrest
    by_cases ht : e.type = EventType.timeShift
    · have hv := he ht
      cases e with
      | mk ty v =>
        simp only at ht hv
        subst ht; subst hv
        simp only [if_pos rfl]
        norm_num [pyInt, STEPS_PER_MILLISECOND]
    · simp [ht]

theorem processEvents_zero (l : List Event) (h : windowListOk l = true) :
    processEvents l 0 = l := by
  simp only [windowListOk, Bool.and_eq_true] at h
  have hv : ∀ e ∈ l, e.type = EventType.timeShift → e.value = 0 := by
    intro e he ht
    have h5 := (List.all_eq_true.mp h.1) e he
    rw [if_pos ht] at h5
    exact eq_of_beq h5
  rw [processEvents, rewriteTimeShifts_zero l hv,
    removeAnchorShifts_of_noDeletable l h.2]

/-- C7 (corrected): re-running the time-normalization step with window
start time 0 is NOT a no-op in general (it divides every normalized
`TIME_SHIFT` value by 10 again, truncating, and can delete further
events); it is a no-op precisely on windows all of whose `TIME_SHIFT`
values are 0 and in which no `TIME_SHIFT` is followed — before any other
shift or anchor — by a curve-anchor event. This theorem proves the no-op
under those conditions. -/
theorem c7_rerun_noop_conditions (t : TrimmedWindow)
    (h1 : windowListOk t.events = true)
    (h2 : optListOk t.pre_events = true)
    (h3 : optListOk t.other_events = true) :
    trimTimeShifts ⟨0, t.events, t.pre_events, t.other_events⟩ = t := by
  cases t with
  | mk ev pre other =>
    simp only [trimTimeShifts, TrimmedWindow.mk.injEq]
    simp only at h1 h2 h3
    refine ⟨processEvents_zero ev h1, ?_, ?_⟩
    · cases pre with
      | none => rfl
      | some l =>
        simp only [optListOk] at h2
        simp [processEvents_zero l h2]
    · cases other with
      | none => rfl
      | some l =>
        simp only [optListOk] at h3
        simp [processEvents_zero l h3]

/-- C7 counterexample: the already-normalized window obtained from a
single `TIME_SHIFT` at 50 ms (start 0) has events `[TIME_SHIFT 5]`;
re-running normalization with start time 0 changes it to
`[TIME_SHIFT 0]`. -/
theorem c7_rerun_counterexample :
    (trimTimeShifts ⟨0, [⟨EventType.timeShift, 50⟩], none, none⟩).events
      = [⟨EventType.timeShift, 5⟩] ∧
    (trimTimeShifts ⟨0,
        (trimTimeShifts ⟨0, [⟨EventType.timeShift, 50⟩], none, none⟩).events,
        none, none⟩).events
      ≠ (trimTimeShifts ⟨0, [⟨EventType.timeShift, 50⟩], none, none⟩).events := by
  decide

/-- C7 witness: the amended statement evaluated on a concrete window. -/
theorem c7_rerun_noop_conditions_witness :
    windowListOk [⟨EventType.timeShift, 0⟩, ⟨EventType.circle, 3⟩] = true ∧
    optListOk none = true ∧
    trimTimeShifts ⟨0, [⟨EventType.timeShift, 0⟩, ⟨EventType.circle, 3⟩], none, none⟩
      = ⟨[⟨EventType.timeShift, 0⟩, ⟨EventType.circle, 3⟩], none, none⟩ :=
  ⟨by decide, by decide,
    c7_rerun_noop_conditions
      ⟨[⟨EventType.timeShift, 0⟩, ⟨EventType.circle, 3⟩], none, none⟩
      (by decide) (by decide) (by decide)⟩

/-! ## C5: frame segmentation -/

theorem chunkGo_spec (hop : Nat) (hhop : 0 < hop) :
    ∀ (fuel : Nat) (l : List ℚ), l.length ≤ fuel → hop ∣ l.length →
      (chunkGo hop fuel l).length = l.length / hop ∧
      (∀ f ∈ chunkGo hop fuel l, f.length = hop) ∧
      (chunkGo hop fuel l).flatten = l := by
  intro fuel
  induction fuel with
  | zero =>
    intro l hl hd
    match l with
    | [] => simp [chunkGo]
    | x :: xs => simp at hl
  | succ fuel ih =>
    intro l hl hd
    match l with
    | [] => simp [chunkGo]
    | x :: xs =>
      have hlen : hop ≤ (x :: xs).length := Nat.le_of_dvd (by simp) hd
      have hdrop : ((x :: xs).drop hop).length = (x :: xs).length - hop := by
        simp [List.length_drop]
      have h1 : ((x :: xs).drop hop).length ≤ fuel := by
        rw [hdrop]; simp at hl ⊢; omega
      have h2 : hop ∣ ((x :: xs).drop hop).length := by
        rw [hdrop]; exact Nat.dvd_sub' hd (dvd_refl hop)
      obtain ⟨ihl, ihw, ihf⟩ := ih _ h1 h2
      refine ⟨?_, ?_, ?_⟩
      · show (_ :: chunkGo hop fuel _).length = _
        rw [List.length_cons, ihl, hdrop]
        have hdiv : (x :: xs).length / hop = ((x :: xs).length - hop) / hop + 1 := by
          conv_lhs => rw [show (x :: xs).length = ((x :: xs).length - hop) + hop by omega]
          rw [Nat.add_div_right _ hhop]
        rw [hdiv]
      · intro f hf
        rcases List.mem_cons.mp hf with hf | hf
        · subst hf
          rw [List.length_take]
          omega
        · exact ihw f hf
      · show ((x :: xs).take hop :: chunkGo hop fuel _).flatten = _
        rw [List.flatten_cons, ihf, List.take_append_drop]

/-- C5 (corrected): for a nonempty sample array of length `L` the frame
segmenter produces `L / hop_length + 1` frames (floor division plus one:
when `hop_length` divides `L` an entire extra zero frame is appended, so
the count is NOT `ceil(L / hop_length)` there), each frame has width
`hop_length`, the concatenation of the frames is the zero-padded sample
array, and in the non-divisible case the count does agree with
`ceil(L / hop_length)` (pinned by the bracketing in the last conjunct). -/
theorem c5_frame_count (hop : Nat) (samples : List ℚ) (hhop : 0 < hop) :
    (getFrames hop samples).length = samples.length / hop + 1 ∧
    (∀ f ∈ getFrames hop samples, f.length = hop) ∧
    (getFrames hop samples).flatten
      = samples ++ List.replicate (hop - samples.length % hop) 0 ∧
    (samples.length % hop ≠ 0 →
      hop * ((getFrames hop samples).length - 1) < samples.length ∧
        samples.length ≤ hop * (getFrames hop samples).length) := by
  have hmod : samples.length % hop < hop := Nat.mod_lt _ hhop
  have hdm := Nat.div_add_mod samples.length hop
  have hplen : (samples ++ List.replicate (hop - samples.length % hop) 0).length
      = hop * (samples.length / hop + 1) := by
    rw [List.length_append, List.length_replicate, Nat.mul_add, Nat.mul_one]
    generalize hq : hop * (samples.length / hop) = A at hdm ⊢
    omega
  obtain ⟨h1, h2, h3⟩ := chunkGo_spec hop hhop
    (samples ++ List.replicate (hop - samples.length % hop) 0).length
    (samples ++ List.replicate (hop - samples.length % hop) 0)
    (le_refl _) ⟨_, hplen⟩
  have hlen : (getFrames hop samples).length = samples.length / hop + 1 := by
    show (chunkGo hop _ _).length = _
    rw [h1, hplen, Nat.mul_div_cancel_left _ hhop]
  refine ⟨hlen, h2, h3, ?_⟩
  intro hnz
  rw [hlen]
  simp only [Nat.add_sub_cancel, Nat.mul_add, Nat.mul_one]
  generalize hq : hop * (samples.length / hop) = A at hdm ⊢
  omega

/-- C5 counterexample: 4 samples with `hop_length = 2` (an exact multiple)
produce 3 frames, not `ceil(4/2) = 4/2 = 2` as the claim asserts. -/
theorem c5_frame_count_counterexample :
    (getFrames 2 [(1 : ℚ), 2, 3, 4]).length = 3 ∧
    (4 : Nat) % 2 = 0 ∧ (getFrames 2 [(1 : ℚ), 2, 3, 4]).length ≠ 4 / 2 := by
  decide

/-- C5 witness: the amended statement evaluated on a concrete sample
array of length 3 with `hop_length = 2`. -/
theorem c5_frame_count_witness :
    0 < 2 ∧
    ((getFrames 2 [(1 : ℚ), 2, 3]).length = 3 / 2 + 1 ∧
      (∀ f ∈ getFrames 2 [(1 : ℚ), 2, 3], f.length = 2) ∧
      (getFrames 2 [(1 : ℚ), 2, 3]).flatten
        = [(1 : ℚ), 2, 3] ++ List.replicate (2 - 3 % 2) 0 ∧
      (3 % 2 ≠ 0 →
        2 * ((getFrames 2 [(1 : ℚ), 2, 3]).length - 1) < 3 ∧
          3 ≤ 2 * (getFrames 2 [(1 : ℚ), 2, 3]).length)) :=
  ⟨by decide, c5_frame_count 2 [1, 2, 3] (by decide)⟩

/-! ## Length lemmas for the packed buffers -/

theorem setSlice_length (l : List Int) (st : Nat) (src : List Int) :
    (setSlice l st src).length = l.length := by
  simp only [setSlice, List.length_append, List.length_take, List.length_drop]
  omega

theorem flatten_length_uniform (L : List (List ℚ)) (w : Nat)
    (h : ∀ r ∈ L, r.length = w) : L.flatten.length = L.length * w := by
  induction L with
  | nil => simp
  | cons r rest ih =>
    rw [List.flatten_cons, List.length_append, List.length_cons,
      h r (List.mem_cons_self ..), ih fun x hx => h x (List.mem_cons_of_mem _ hx),
      Nat.succ_mul]
    omega

theorem padFrameSequence_length (fsl w : Nat) (frames : List (List ℚ))
    (hw : ∀ r ∈ frames, r.length = w) :
    (padFrameSequence fsl w frames).length = fsl * w := by
  rw [padFrameSequence]
  split
  · rename_i hne
    rw [flatten_length_uniform _ w]
    · rw [List.length_append, List.length_take, List.length_replicate]
      have hcount : min (min fsl frames.length) frames.length
          + (fsl - min fsl frames.length) = fsl := by omega
      rw [hcount]
    · intro r hr
      rcases List.mem_append.mp hr with hr | hr
      · exact hw r (List.take_subset _ _ hr)
      · rw [List.eq_of_mem_replicate hr, List.length_replicate]
  · rename_i heq
    rw [flatten_length_uniform _ w hw]
    simp at heq
    rw [heq]

theorem packInput1_length (a : Args) (tk : Tokenizer) (s : TokSeq) :
    (packInput1 a tk s).length = a.tgt_seq_len := by
  simp only [packInput1]
  split_ifs <;>
    simp [setSliceI, setSlice_length, setAtI, packInput0, List.length_set,
      List.length_replicate]

theorem packInput3_length (a : Args) (tk : Tokenizer) (s : TokSeq) :
    (packInput3 a tk s).length = a.tgt_seq_len := by
  simp only [packInput3]
  split_ifs <;>
    simp [setAtI, List.length_set, packInput1_length]

theorem packInput4_length (a : Args) (tk : Tokenizer) (s : TokSeq) :
    (packInput4 a tk s).length = a.tgt_seq_len := by
  simp only [packInput4]
  split_ifs <;>
    simp [setSliceI, setSlice_length, packInput3_length]

theorem packInput5_length (a : Args) (tk : Tokenizer) (s : TokSeq) :
    (packInput5 a tk s).length = a.tgt_seq_len := by
  simp only [packInput5]
  simp [setSliceI, setSlice_length, packInput4_length]

theorem packInput6_length (a : Args) (tk : Tokenizer) (s : TokSeq) (joff : Int) :
    (packInput6 a tk s joff).length = a.tgt_seq_len := by
  simp only [packInput6]
  split_ifs <;>
    simp [List.length_map, packInput5_length]

theorem packLabels_length (a : Args) (s : TokSeq) :
    (packLabels a s).length = a.tgt_seq_len := by
  simp [packLabels, setSliceI, setSlice_length]

/-- C2 (confirmed): for every emitted example the three packed token
buffers each have length exactly `tgt_seq_len` (for every input record and
every jitter draw), and the flattened frame vector of a window whose rows
have the frame width `hop_length` has length exactly
`frame_seq_len * hop_length`. -/
theorem c2_emitted_lengths (a : Args) (tk : Tokenizer) (s : TokSeq) (joff : Int)
    (frames : List (List ℚ)) (hw : ∀ r ∈ frames, r.length = a.hop_length) :
    (padAndSplitTokenSequence a tk s joff).decoder_input_ids.length = a.tgt_seq_len ∧
    (padAndSplitTokenSequence a tk s joff).labels.length = a.tgt_seq_len ∧
    (padAndSplitTokenSequence a tk s joff).decoder_attention_mask.length = a.tgt_seq_len ∧
    (padFrameSequence (frameSeqLen a) a.hop_length frames).length
      = frameSeqLen a * a.hop_length :=
  ⟨packInput6_length a tk s joff, packLabels_length a s,
    by simpa [padAndSplitTokenSequence] using packInput6_length a tk s joff,
    padFrameSequence_length _ _ _ hw⟩

/-- C2 witness: the lengths evaluated on a concrete configuration. -/
theorem c2_emitted_lengths_witness :
    (∀ r ∈ [[(1 : ℚ), 1], [2, 2]], r.length = 2) ∧
    ((padAndSplitTokenSequence ⟨3, 8, 2, 0, false, 0, false, -1, -1, 0, 0, 0⟩
        ⟨0, 1, 2, 3, 4, 5, 100, 200, id, fun _ => 0⟩
        ⟨[1, 5, 2], none, none, 0, 0, 0, 0⟩ 0).decoder_input_ids.length = 8 ∧
      (padAndSplitTokenSequence ⟨3, 8, 2, 0, false, 0, false, -1, -1, 0, 0, 0⟩
        ⟨0, 1, 2, 3, 4, 5, 100, 200, id, fun _ => 0⟩
        ⟨[1, 5, 2], none, none, 0, 0, 0, 0⟩ 0).labels.length = 8 ∧
      (padAndSplitTokenSequence ⟨3, 8, 2, 0, false, 0, false, -1, -1, 0, 0, 0⟩
        ⟨0, 1, 2, 3, 4, 5, 100, 200, id, fun _ => 0⟩
        ⟨[1, 5, 2], none, none, 0, 0, 0, 0⟩ 0).decoder_attention_mask.length = 8 ∧
      (padFrameSequence (frameSeqLen ⟨3, 8, 2, 0, false, 0, false, -1, -1, 0, 0, 0⟩) 2
        [[(1 : ℚ), 1], [2, 2]]).length
        = frameSeqLen ⟨3, 8, 2, 0, false, 0, false, -1, -1, 0, 0, 0⟩ * 2) :=
  ⟨by decide,
    c2_emitted_lengths ⟨3, 8, 2, 0, false, 0, false, -1, -1, 0, 0, 0⟩
      ⟨0, 1, 2, 3, 4, 5, 100, 200, id, fun _ => 0⟩
      ⟨[1, 5, 2], none, none, 0, 0, 0, 0⟩ 0 [[(1 : ℚ), 1], [2, 2]] (by decide)⟩

/-! ## C10: frame window length -/

/-- C10 (confirmed): the frame window length used throughout the pipeline
is `src_seq_len - 1`: the windowing offset support is exactly
`{0, ..., src_seq_len - 1}`, every window produced by the split loop spans
at most `src_seq_len - 1` frames, and the flattened frame vector of every
emitted example has length `(src_seq_len - 1) * hop_length`. -/
theorem c10_frame_window_len (a : Args) (h1 : 1 ≤ a.src_seq_len)
    (frames frames2 : List (List ℚ)) (offset : Nat)
    (hw : ∀ r ∈ frames2, r.length = a.hop_length) :
    (frameSeqLen a : Int) = (a.src_seq_len : Int) - 1 ∧
    (∀ off, off ∈ offsetChoices a ↔ off ≤ a.src_seq_len - 1) ∧
    (∀ w ∈ createWindows (frameSeqLen a) frames offset, w.length ≤ a.src_seq_len - 1) ∧
    (padFrameSequence (frameSeqLen a) a.hop_length frames2).length
      = (a.src_seq_len - 1) * a.hop_length := by
  refine ⟨?_, ?_, ?_, padFrameSequence_length _ _ _ hw⟩
  · simp only [frameSeqLen]
    omega
  · intro off
    simp [offsetChoices, List.mem_range, frameSeqLen, Nat.lt_succ_iff]
  · intro w hmem
    obtain ⟨st, _, rfl⟩ := List.mem_map.mp hmem
    rw [List.length_take, List.length_drop]
    have : frameSeqLen a = a.src_seq_len - 1 := rfl
    omega

/-- C10 witness: the statement evaluated on a concrete configuration. -/
theorem c10_frame_window_len_witness :
    1 ≤ 3 ∧ (∀ r ∈ [[(1 : ℚ), 1], [2, 2]], r.length = 2) ∧
    ((frameSeqLen ⟨3, 8, 2, 0, false, 0, false, -1, -1, 0, 0, 0⟩ : Int) = (3 : Int) - 1 ∧
      (∀ off, off ∈ offsetChoices ⟨3, 8, 2, 0, false, 0, false, -1, -1, 0, 0, 0⟩ ↔
        off ≤ 3 - 1) ∧
      (∀ w ∈ createWindows (frameSeqLen ⟨3, 8, 2, 0, false, 0, false, -1, -1, 0, 0, 0⟩)
          [[(1 : ℚ), 1], [2, 2], [3, 3]] 1, w.length ≤ 3 - 1) ∧
      (padFrameSequence (frameSeqLen ⟨3, 8, 2, 0, false, 0, false, -1, -1, 0, 0, 0⟩) 2
        [[(1 : ℚ), 1], [2, 2]]).length = (3 - 1) * 2) :=
  ⟨by decide, by decide,
    c10_frame_window_len ⟨3, 8, 2, 0, false, 0, false, -1, -1, 0, 0, 0⟩ (by decide)
      [[(1 : ℚ), 1], [2, 2], [3, 3]] [[(1 : ℚ), 1], [2, 2]] 1 (by decide)⟩

/-! ## C3: empty-sequence filter -/

/-- C3 (corrected): a packed window is discarded by the emission loop iff
`add_empty_sequences` is false and its entire labels array consists only
of the EOS id or the pad id — the source tests `eos_id`/`pad_id`, NOT the
ignore marker; windows whose labels still contain the ignore marker
`-100` (every window whose copied region does not fill the whole buffer)
are always emitted. -/
theorem c3_empty_filter (add_empty : Bool) (tk : Tokenizer) (seqs : List Packed)
    (p : Packed) :
    p ∈ filterEmptySequences add_empty tk seqs ↔
      p ∈ seqs ∧ (add_empty = true ∨ allEosOrPad tk p.labels = false) := by
  rw [filterEmptySequences, List.mem_filter]
  apply and_congr_right
  intro _
  cases add_empty <;> cases h : allEosOrPad tk p.labels <;> simp [h]

/-- C3 counterexample: with `tgt_seq_len = 6`, `special_token_len = 2` and
four pre-context tokens, the main budget `n` is 0, so the labels stay all
`LABEL_IGNORE_ID`; with `add_empty_sequences = False` the claim says this
window must be discarded, yet the filter keeps it (its labels are all
ignore-or-pad but not all eos-or-pad). -/
theorem c3_ignored_labels_counterexample :
    ((padAndSplitTokenSequence ⟨1, 6, 1, 2, false, 0, true, 0, 1, 0, 0, 0⟩
        ⟨0, 1, 2, 3, 4, 5, 100, 200, id, fun _ => 0⟩
        ⟨[1, 9, 2], some [7, 7, 7, 7], none, 50, 60, 0, 0⟩ 0).labels.all
      (fun t => t == LABEL_IGNORE_ID ||
        t == (⟨0, 1, 2, 3, 4, 5, 100, 200, id, fun _ => 0⟩ : Tokenizer).pad_id)) = true ∧
    filterEmptySequences false ⟨0, 1, 2, 3, 4, 5, 100, 200, id, fun _ => 0⟩
        [padAndSplitTokenSequence ⟨1, 6, 1, 2, false, 0, true, 0, 1, 0, 0, 0⟩
          ⟨0, 1, 2, 3, 4, 5, 100, 200, id, fun _ => 0⟩
          ⟨[1, 9, 2], some [7, 7, 7, 7], none, 50, 60, 0, 0⟩ 0]
      = [padAndSplitTokenSequence ⟨1, 6, 1, 2, false, 0, true, 0, 1, 0, 0, 0⟩
          ⟨0, 1, 2, 3, 4, 5, 100, 200, id, fun _ => 0⟩
          ⟨[1, 9, 2], some [7, 7, 7, 7], none, 50, 60, 0, 0⟩ 0] := by
  decide

/-! ## C9: class-index dropout -/

/-- C9 (corrected): the style side-channel token and the emitted
`beatmap_idx` are governed by two INDEPENDENT `random.random()` draws, not
a single per-window decision; they agree (token is the unknown placeholder
iff `beatmap_idx` is the unknown class id) when `class_dropout_prob` is 0
or 1 and the class index is valid, but can disagree for intermediate
probabilities. -/
theorem c9_class_dropout_consistency (a : Args) (tk : Tokenizer) (idx : Int) (d : ℚ)
    (r1 r2 r3 : ℚ) (h1 : 0 ≤ r1) (h2 : r1 < 1) (h3 : 0 ≤ r3) (h4 : r3 < 1)
    (henc : tk.encode_style_idx idx ≠ tk.style_unk) (hidx : idx ≠ tk.num_classes)
    (hp : a.class_dropout_prob = 0 ∨ a.class_dropout_prob = 1) :
    ((tokenizeDropout a tk idx d r1 r2 r3).1 = tk.style_unk ↔
      (tokenizeDropout a tk idx d r1 r2 r3).2.2 = tk.num_classes) := by
  rcases hp with hp | hp
  · simp [tokenizeDropout, hp, h1, h3, henc, hidx]
  · simp [tokenizeDropout, hp, not_le.mpr h2, not_le.mpr h4]

/-- C9 counterexample: with `class_dropout_prob = 1/2` and draws
`r1 = 0`, `r3 = 3/4`, the style token is the unknown placeholder while the
emitted `beatmap_idx` keeps its original value `7 ≠ num_classes`: the two
sides of one example disagree. -/
theorem c9_two_draws_counterexample :
    (tokenizeDropout ⟨1, 8, 1, 0, false, 0, false, -1, -1, 0, 1/2, 0⟩
        ⟨0, 1, 2, 3, 4, 5, 100, 200, fun i => i + 1000, fun _ => 0⟩ 7 0 0 0 (3/4)).1
      = (⟨0, 1, 2, 3, 4, 5, 100, 200, fun i => i + 1000, fun _ => 0⟩ : Tokenizer).style_unk ∧
    (tokenizeDropout ⟨1, 8, 1, 0, false, 0, false, -1, -1, 0, 1/2, 0⟩
        ⟨0, 1, 2, 3, 4, 5, 100, 200, fun i => i + 1000, fun _ => 0⟩ 7 0 0 0 (3/4)).2.2
      ≠ (⟨0, 1, 2, 3, 4, 5, 100, 200, fun i => i + 1000, fun _ => 0⟩ : Tokenizer).num_classes := by
  constructor
  · simp only [tokenizeDropout]
    norm_num
  · simp only [tokenizeDropout]
    norm_num

/-- C9 witness: the amended statement at `class_dropout_prob = 1` (as in
test mode), where both sides become the unknown placeholders. -/
theorem c9_class_dropout_consistency_witness :
    (0 : ℚ) ≤ 0 ∧ (0 : ℚ) < 1 ∧ (0 : ℚ) ≤ 1/2 ∧ (1/2 : ℚ) < 1 ∧
    ((fun (i : Int) => i + 1000) 7 ≠ (3 : Int)) ∧ ((7 : Int) ≠ 5) ∧
    ((1 : ℚ) = 0 ∨ (1 : ℚ) = 1) ∧
    ((tokenizeDropout ⟨1, 8, 1, 0, false, 0, false, -1, -1, 0, 1, 0⟩
        ⟨0, 1, 2, 3, 4, 5, 100, 200, fun i => i + 1000, fun _ => 0⟩ 7 0 0 0 (1/2)).1
      = (⟨0, 1, 2, 3, 4, 5, 100, 200, fun i => i + 1000, fun _ => 0⟩ : Tokenizer).style_unk ↔
      (tokenizeDropout ⟨1, 8, 1, 0, false, 0, false, -1, -1, 0, 1, 0⟩
        ⟨0, 1, 2, 3, 4, 5, 100, 200, fun i => i + 1000, fun _ => 0⟩ 7 0 0 0 (1/2)).2.2
      = (⟨0, 1, 2, 3, 4, 5, 100, 200, fun i => i + 1000, fun _ => 0⟩ : Tokenizer).num_classes) :=
  ⟨le_refl 0, by norm_num, by norm_num, by norm_num, by norm_num, by norm_num,
    Or.inr rfl,
    c9_class_dropout_consistency ⟨1, 8, 1, 0, false, 0, false, -1, -1, 0, 1, 0⟩
      ⟨0, 1, 2, 3, 4, 5, 100, 200, fun i => i + 1000, fun _ => 0⟩ 7 0 0 0 (1/2)
      (le_refl 0) (by norm_num) (by norm_num) (by norm_num) (by norm_num) (by norm_num)
      (Or.inr rfl)⟩

/-! ## C1: the label-shift relation -/

theorem setSlice_getElem (l : List Int) (st : Nat) (src : List Int) (i : Nat)
    (hfit : st + src.length ≤ l.length) :
    (setSlice l st src)[i]? =
      if st ≤ i ∧ i < st + src.length then src[i - st]? else l[i]? := by
  have h1 : (l.take st).length = st := by rw [List.length_take]; omega
  have h2 : src.take (l.length - st) = src := List.take_of_length_le (by omega)
  rw [setSlice, h2]
  rcases Nat.lt_or_ge i st with hi | hi
  · rw [List.getElem?_append, if_pos (by rw [List.length_append, h1]; omega)]
    rw [List.getElem?_append, if_pos (by rw [h1]; omega)]
    rw [List.getElem?_take, if_pos hi, if_neg (by omega)]
  · rcases Nat.lt_or_ge i (st + src.length) with hi2 | hi2
    · rw [List.getElem?_append, if_pos (by rw [List.length_append, h1]; omega)]
      rw [List.getElem?_append, if_neg (by rw [h1]; omega), h1]
      rw [if_pos ⟨hi, hi2⟩]
    · rw [List.getElem?_append, if_neg (by rw [List.length_append, h1]; omega)]
      rw [List.length_append, h1, List.getElem?_drop]
      rw [show st + src.length + (i - (st + src.length)) = i by omega]
      rw [if_neg (by omega)]

theorem setSlice_getD (l : List Int) (st : Nat) (src : List Int) (d : Int) (i : Nat)
    (hfit : st + src.length ≤ l.length) :
    (setSlice l st src).getD i d =
      if st ≤ i ∧ i < st + src.length then src.getD (i - st) d else l.getD i d := by
  rw [List.getD_eq_getElem?_getD, setSlice_getElem l st src i hfit]
  split <;> rw [← List.getD_eq_getElem?_getD]

theorem getD_replicate_self (n : Nat) (x : Int) (i : Nat) :
    (List.replicate n x).getD i x = x := by
  rw [List.getD_eq_getElem?_getD, List.getElem?_replicate]
  split <;> simp

/-- `n` never exceeds `len(tokens) - 1` (it is a `min` against it). -/
theorem packN_le_tokens (a : Args) (s : TokSeq) :
    packN a s ≤ (s.tokens.length : Int) - 1 := by
  rw [packN]; split <;> exact min_le_right _ _

/-- Element description of the packed `labels` buffer: the copied region
holds `tokens[1:n+1]`, everything else is the ignore marker. -/
theorem packLabels_getD (a : Args) (s : TokSeq) (hn : 0 ≤ packN a s)
    (hfit : (packMainStart a s).toNat + (packN a s).toNat ≤ a.tgt_seq_len) (j : Nat) :
    (packLabels a s).getD j LABEL_IGNORE_ID =
      if (packMainStart a s).toNat ≤ j ∧
          j < (packMainStart a s).toNat + (packN a s).toNat
      then s.tokens.getD (j - (packMainStart a s).toNat + 1) LABEL_IGNORE_ID
      else LABEL_IGNORE_ID := by
  have htok : (packN a s).toNat + 1 ≤ s.tokens.length := by
    have := packN_le_tokens a s
    omega
  have hlen : (pySliceOne s.tokens (packN a s)).length = (packN a s).toNat := by
    rw [pySliceOne, List.length_take, List.length_drop]
    omega
  have hfit2 : (packMainStart a s).toNat + (pySliceOne s.tokens (packN a s)).length
      ≤ (List.replicate a.tgt_seq_len LABEL_IGNORE_ID).length := by
    rw [hlen, List.length_replicate]; exact hfit
  simp only [packLabels, setSliceI]
  rw [setSlice_getD _ _ _ _ _ hfit2, hlen]
  split
  · rename_i hj
    rw [pySliceOne, List.getD_eq_getElem?_getD, List.getElem?_take, if_pos (by omega)]
    rw [List.getElem?_drop, show 1 + (j - (packMainStart a s).toNat)
      = j - (packMainStart a s).toNat + 1 by omega]
    rw [← List.getD_eq_getElem?_getD]
  · exact getD_replicate_self ..

/-- Element description of the copied main-token region of the (pre-jitter)
`input_tokens` buffer: it holds `tokens[:n]`. -/
theorem packInput5_getD_main (a : Args) (tk : Tokenizer) (s : TokSeq) (hn : 0 ≤ packN a s)
    (hfit : (packMainStart a s).toNat + (packN a s).toNat ≤ a.tgt_seq_len) (j : Nat)
    (hj1 : (packMainStart a s).toNat ≤ j)
    (hj2 : j < (packMainStart a s).toNat + (packN a s).toNat) :
    (packInput5 a tk s).getD j 0 = s.tokens.getD (j - (packMainStart a s).toNat) 0 := by
  have htok : (packN a s).toNat + 1 ≤ s.tokens.length := by
    have := packN_le_tokens a s
    omega
  have hlen : (pyTakeI s.tokens (packN a s)).length = (packN a s).toNat := by
    rw [pyTakeI, List.length_take]
    omega
  have hfit2 : (packMainStart a s).toNat + (pyTakeI s.tokens (packN a s)).length
      ≤ (packInput4 a tk s).length := by
    rw [hlen, packInput4_length]; exact hfit
  simp only [packInput5, setSliceI]
  rw [setSlice_getD _ _ _ _ _ hfit2, hlen, if_pos ⟨hj1, hj2⟩]
  rw [pyTakeI, List.getD_eq_getElem?_getD, List.getElem?_take, if_pos (by omega)]
  rw [← List.getD_eq_getElem?_getD]

/-- C1 (corrected): at every position `i` where `labels[i]` is not the
ignore marker, `i` lies in the copied main-token region
`[start+m+stl, start+m+stl+n)`, and whenever `i+1` is STILL INSIDE that
region and timing jitter is disabled, `labels[i]` equals
`decoder_input_ids[i+1]`. The relation does NOT extend to the position
holding the last copied main token (there `decoder_input_ids[i+1]` is
untouched padding while `labels[i]` holds `tokens[n]`), and it is broken
at positions whose input id is modified by the timing jitter, which
rewrites inputs only, never labels. -/
theorem c1_label_shift (a : Args) (tk : Tokenizer) (s : TokSeq) (joff : Int)
    (htro : a.timing_random_offset = 0) (hn : 0 ≤ packN a s)
    (hfit : (packMainStart a s).toNat + (packN a s).toNat ≤ a.tgt_seq_len)
    (i : Nat)
    (hlab : (padAndSplitTokenSequence a tk s joff).labels.getD i LABEL_IGNORE_ID
      ≠ LABEL_IGNORE_ID) :
    ((packMainStart a s).toNat ≤ i ∧
      i < (packMainStart a s).toNat + (packN a s).toNat) ∧
    (i + 1 < (packMainStart a s).toNat + (packN a s).toNat →
      (padAndSplitTokenSequence a tk s joff).decoder_input_ids.getD (i + 1) 0
        = (padAndSplitTokenSequence a tk s joff).labels.getD i LABEL_IGNORE_ID) := by
  have htok : (packN a s).toNat + 1 ≤ s.tokens.length := by
    have := packN_le_tokens a s
    omega
  have hlabels : (padAndSplitTokenSequence a tk s joff).labels = packLabels a s := rfl
  have hreg : (packMainStart a s).toNat ≤ i ∧
      i < (packMainStart a s).toNat + (packN a s).toNat := by
    by_contra hcon
    rw [hlabels, packLabels_getD a s hn hfit i, if_neg hcon] at hlab
    exact hlab rfl
  refine ⟨hreg, ?_⟩
  intro hlt
  have hin : (padAndSplitTokenSequence a tk s joff).decoder_input_ids
      = packInput5 a tk s := by
    show packInput6 a tk s joff = _
    rw [packInput6, if_neg (by rw [htro]; exact lt_irrefl 0)]
  rw [hin, packInput5_getD_main a tk s hn hfit (i + 1) (by omega) hlt]
  rw [hlabels, packLabels_getD a s hn hfit i, if_pos hreg]
  have hidx : i + 1 - (packMainStart a s).toNat = i - (packMainStart a s).toNat + 1 := by
    omega
  have hb : i - (packMainStart a s).toNat + 1 < s.tokens.length := by omega
  rw [hidx, List.getD_eq_getElem _ _ hb, List.getD_eq_getElem _ _ hb]

/-- C1 counterexample, both failing aspects of the claim on concrete
packings. First: with `tokens = [sos, 5, eos]`, `n = 2`, the position
`i = 1` holding the last copied main token has `labels[1] = eos = 2 ≠ -100`
but `decoder_input_ids[2] = pad = 0 ≠ 2`. Second: with timing jitter
enabled (`timing_random_offset = 1`, draw `3`) and a `TIME_SHIFT`-range
token `10`, the interior position `i = 0` has `labels[0] = 10` but
`decoder_input_ids[1] = 13` after jitter. -/
theorem c1_label_shift_counterexample :
    ((padAndSplitTokenSequence ⟨1, 8, 1, 0, false, 0, false, -1, -1, 0, 0, 0⟩
        ⟨0, 1, 2, 3, 4, 5, 100, 200, id, fun _ => 0⟩
        ⟨[1, 5, 2], none, none, 0, 0, 0, 0⟩ 0).labels.getD 1 LABEL_IGNORE_ID = 2 ∧
      (padAndSplitTokenSequence ⟨1, 8, 1, 0, false, 0, false, -1, -1, 0, 0, 0⟩
        ⟨0, 1, 2, 3, 4, 5, 100, 200, id, fun _ => 0⟩
        ⟨[1, 5, 2], none, none, 0, 0, 0, 0⟩ 0).decoder_input_ids.getD 2 0 = 0 ∧
      (2 : Int) ≠ 0) ∧
    ((padAndSplitTokenSequence ⟨1, 8, 1, 0, false, 0, false, -1, -1, 1, 0, 0⟩
        ⟨0, 1, 2, 3, 4, 5, 5, 100, id, fun _ => 0⟩
        ⟨[1, 10, 2], none, none, 0, 0, 0, 0⟩ 3).labels.getD 0 LABEL_IGNORE_ID = 10 ∧
      (padAndSplitTokenSequence ⟨1, 8, 1, 0, false, 0, false, -1, -1, 1, 0, 0⟩
        ⟨0, 1, 2, 3, 4, 5, 5, 100, id, fun _ => 0⟩
        ⟨[1, 10, 2], none, none, 0, 0, 0, 0⟩ 3).decoder_input_ids.getD 1 0 = 13 ∧
      (10 : Int) ≠ 13) := by
  decide

/-- C1 witness: the amended statement evaluated at an interior position of
a concrete packing. -/
theorem c1_label_shift_witness :
    ((⟨1, 8, 1, 0, false, 0, false, -1, -1, 0, 0, 0⟩ : Args).timing_random_offset = 0 ∧
      0 ≤ packN ⟨1, 8, 1, 0, false, 0, false, -1, -1, 0, 0, 0⟩
        ⟨[1, 5, 2], none, none, 0, 0, 0, 0⟩ ∧
      (padAndSplitTokenSequence ⟨1, 8, 1, 0, false, 0, false, -1, -1, 0, 0, 0⟩
        ⟨0, 1, 2, 3, 4, 5, 100, 200, id, fun _ => 0⟩
        ⟨[1, 5, 2], none, none, 0, 0, 0, 0⟩ 0).labels.getD 0 LABEL_IGNORE_ID
        ≠ LABEL_IGNORE_ID) ∧
    (((packMainStart ⟨1, 8, 1, 0, false, 0, false, -1, -1, 0, 0, 0⟩
        ⟨[1, 5, 2], none, none, 0, 0, 0, 0⟩).toNat ≤ 0 ∧
      0 < (packMainStart ⟨1, 8, 1, 0, false, 0, false, -1, -1, 0, 0, 0⟩
        ⟨[1, 5, 2], none, none, 0, 0, 0, 0⟩).toNat +
        (packN ⟨1, 8, 1, 0, false, 0, false, -1, -1, 0, 0, 0⟩
          ⟨[1, 5, 2], none, none, 0, 0, 0, 0⟩).toNat) ∧
      (0 + 1 < (packMainStart ⟨1, 8, 1, 0, false, 0, false, -1, -1, 0, 0, 0⟩
          ⟨[1, 5, 2], none, none, 0, 0, 0, 0⟩).toNat +
          (packN ⟨1, 8, 1, 0, false, 0, false, -1, -1, 0, 0, 0⟩
            ⟨[1, 5, 2], none, none, 0, 0, 0, 0⟩).toNat →
        (padAndSplitTokenSequence ⟨1, 8, 1, 0, false, 0, false, -1, -1, 0, 0, 0⟩
          ⟨0, 1, 2, 3, 4, 5, 100, 200, id, fun _ => 0⟩
          ⟨[1, 5, 2], none, none, 0, 0, 0, 0⟩ 0).decoder_input_ids.getD (0 + 1) 0
          = (padAndSplitTokenSequence ⟨1, 8, 1, 0, false, 0, false, -1, -1, 0, 0, 0⟩
            ⟨0, 1, 2, 3, 4, 5, 100, 200, id, fun _ => 0⟩
            ⟨[1, 5, 2], none, none, 0, 0, 0, 0⟩ 0).labels.getD 0 LABEL_IGNORE_ID)) :=
  ⟨⟨by decide, by decide, by decide⟩,
    c1_label_shift ⟨1, 8, 1, 0, false, 0, false, -1, -1, 0, 0, 0⟩
      ⟨0, 1, 2, 3, 4, 5, 100, 200, id, fun _ => 0⟩
      ⟨[1, 5, 2], none, none, 0, 0, 0, 0⟩ 0 (by decide) (by decide)
      (by decide) 0 (by decide)⟩

/-! ## C8: the interleaving multiplexer -/

theorem removeFirst_eq_eraseIdx [DecidableEq α] :
    ∀ (ws : List (Worker α)) (j : Nat) (w : Worker α), (idsOf ws).Nodup →
      ws[j]? = some w → removeFirst ws w = ws.eraseIdx j := by
  intro ws
  induction ws with
  | nil => intro j w _ h; simp at h
  | cons x xs ih =>
    intro j w hnd hj
    have hnd2 := List.nodup_cons.mp (show (x.1 :: idsOf xs).Nodup from hnd)
    match j with
    | 0 =>
      simp only [List.getElem?_cons_zero, Option.some.injEq] at hj
      subst hj
      simp [removeFirst]
    | j + 1 =>
      simp only [List.getElem?_cons_succ] at hj
      have hxw : x ≠ w := by
        intro he
        subst he
        exact hnd2.1 (List.mem_map_of_mem Prod.fst (List.getElem?_mem hj))
      simp only [removeFirst, if_neg hxw, List.eraseIdx_cons_succ]
      exact congrArg (x :: ·) (ih j w hnd2.2 hj)

theorem itemsOf_eraseIdx_empty :
    ∀ (ws : List (Worker α)) (j : Nat) (wid : Nat),
      ws[j]? = some (wid, ([] : List α)) → itemsOf (ws.eraseIdx j) = itemsOf ws := by
  intro ws
  induction ws with
  | nil => intro j wid h; simp at h
  | cons x xs ih =>
    intro j wid hj
    match j with
    | 0 =>
      simp only [List.getElem?_cons_zero, Option.some.injEq] at hj
      subst hj
      simp [itemsOf]
    | j + 1 =>
      simp only [List.getElem?_cons_succ] at hj
      simp only [List.eraseIdx_cons_succ, itemsOf, List.map_cons, List.flatten_cons]
      exact congrArg (x.2 ++ ·) (ih j wid hj)

theorem idsOf_set_eq (ws : List (Worker α)) (j : Nat) (wid : Nat)
    (its rest : List α) (hj : ws[j]? = some (wid, its)) :
    idsOf (ws.set j (wid, rest)) = idsOf ws := by
  induction ws generalizing j with
  | nil => simp at hj
  | cons x xs ih =>
    match j with
    | 0 =>
      simp only [List.getElem?_cons_zero, Option.some.injEq] at hj
      subst hj
      simp [idsOf, List.set]
    | j + 1 =>
      simp only [List.getElem?_cons_succ] at hj
      simp only [idsOf, List.set, List.map_cons]
      exact congrArg (x.1 :: ·) (ih j hj)

theorem itemsOf_set_cons (ws : List (Worker α)) (j : Nat) (wid : Nat)
    (a : α) (rest : List α) (hj : ws[j]? = some (wid, a :: rest)) :
    (itemsOf ws : Multiset α) = a ::ₘ (itemsOf (ws.set j (wid, rest)) : Multiset α) := by
  induction ws generalizing j with
  | nil => simp at hj
  | cons x xs ih =>
    match j with
    | 0 =>
      simp only [List.getElem?_cons_zero, Option.some.injEq] at hj
      subst hj
      simp only [itemsOf, List.set, List.map_cons, List.flatten_cons, List.cons_append]
      rw [← Multiset.cons_coe]
    | j + 1 =>
      simp only [List.getElem?_cons_succ] at hj
      simp only [itemsOf, List.set, List.map_cons, List.flatten_cons]
      have ihj := ih j hj
      simp only [itemsOf] at ihj
      rw [← Multiset.coe_add, ← Multiset.coe_add, ihj, Multiset.add_cons]

/-- One `__next__` call with loop bound `len(workers)` never raises
anything but `StopIteration`; `StopIteration` is raised only with no items
left anywhere; and a yielded item is removed from exactly one worker,
preserving tag distinctness. -/
theorem stepGo_spec [DecidableEq α] :
    ∀ (fuel : Nat) (ws : List (Worker α)) (i : Nat), fuel = ws.length →
      (idsOf ws).Nodup →
      (stepGo fuel ws i ≠ StepRes.error) ∧
      (∀ ws2 i2, stepGo fuel ws i = StepRes.stop ws2 i2 → itemsOf ws = ([] : List α)) ∧
      (∀ a ws2 i2, stepGo fuel ws i = StepRes.item a ws2 i2 →
        (idsOf ws2).Nodup ∧ (itemsOf ws : Multiset α) = a ::ₘ (itemsOf ws2 : Multiset α)) := by
  intro fuel
  induction fuel with
  | zero =>
    intro ws i hf hnd
    have hws : ws = [] := by
      cases ws with
      | nil => rfl
      | cons x xs => simp at hf
    subst hws
    refine ⟨by simp [stepGo], ?_, ?_⟩
    · intro _ _ _
      simp [itemsOf]
    · intro a ws2 i2 h
      simp [stepGo] at h
  | succ fuel ih =>
    intro ws i hf hnd
    have hpos : ¬(ws.length = 0) := by omega
    have hjlt : i % ws.length < ws.length := Nat.mod_lt _ (by omega)
    have hget : ws[i % ws.length]? = some (ws.getD (i % ws.length) (0, [])) := by
      rw [List.getD_eq_getElem _ _ hjlt, List.getElem?_eq_getElem hjlt]
    rcases hgd : ws.getD (i % ws.length) (0, []) with ⟨wid, items⟩
    rw [hgd] at hget
    have hstep : stepGo (fuel + 1) ws i =
        match (wid, items) with
        | (wid, []) => stepGo fuel (removeFirst ws (wid, [])) (i % ws.length)
        | (wid, a :: rest) => StepRes.item a (ws.set (i % ws.length) (wid, rest))
            (i % ws.length + 1) := by
      rw [stepGo, if_neg hpos]
      simp only [hgd]
      rfl
    cases items with
    | nil =>
      simp only at hstep
      have hrm : removeFirst ws (wid, []) = ws.eraseIdx (i % ws.length) :=
        removeFirst_eq_eraseIdx ws (i % ws.length) (wid, []) hnd hget
      have hlen2 : fuel = (ws.eraseIdx (i % ws.length)).length := by
        rw [List.length_eraseIdx_of_lt hjlt]; omega
      have hnd2 : (idsOf (ws.eraseIdx (i % ws.length))).Nodup := by
        refine List.Nodup.sublist (List.Sublist.map Prod.fst ?_) hnd
        exact List.eraseIdx_sublist ws (i % ws.length)
      have hitems : itemsOf (ws.eraseIdx (i % ws.length)) = itemsOf ws :=
        itemsOf_eraseIdx_empty ws (i % ws.length) wid hget
      obtain ⟨e1, e2, e3⟩ := ih (ws.eraseIdx (i % ws.length)) (i % ws.length) hlen2 hnd2
      rw [hstep, hrm]
      refine ⟨e1, ?_, ?_⟩
      · intro ws2 i2 h
        rw [← hitems]
        exact e2 ws2 i2 h
      · intro a ws2 i2 h
        obtain ⟨f1, f2⟩ := e3 a ws2 i2 h
        refine ⟨f1, ?_⟩
        rw [← hitems]
        exact f2
    | cons a rest =>
      simp only at hstep
      refine ⟨by rw [hstep]; intro h; exact StepRes.noConfusion h, ?_, ?_⟩
      · intro ws2 i2 h
        rw [hstep] at h
        exact StepRes.noConfusion h
      · intro b ws2 i2 h
        rw [hstep] at h
        obtain ⟨hb, hws2, hi2⟩ := StepRes.item.inj h
        subst hb; subst hws2
        constructor
        · rw [idsOf_set_eq ws (i % ws.length) wid (a :: rest) rest hget]
          exact hnd
        · exact itemsOf_set_cons ws (i % ws.length) wid a rest hget

/-- C8 (confirmed): draining the multiplexer built from workers with
pairwise distinct generator identities yields, before terminating, a list
whose multiset is exactly the multiset of all items held by all workers —
every item exactly once, none skipped, none repeated — and the drain ends
with a clean `StopIteration` (`DrainEnd.clean`), never with any other
error, for every exhaustion pattern, any starting index, and any
sufficient fuel. -/
theorem c8_multiplexer_drains_all [DecidableEq α] :
    ∀ (fuel : Nat) (ws : List (Worker α)) (i : Nat), (idsOf ws).Nodup →
      totalItems ws < fuel →
      (drain fuel ws i).2 = DrainEnd.clean ∧
      ((drain fuel ws i).1 : Multiset α) = (itemsOf ws : Multiset α) ∧
      (drain fuel ws i).1.length = totalItems ws := by
  intro fuel
  induction fuel with
  | zero =>
    intro ws i hnd h
    omega
  | succ fuel ih =>
    intro ws i hnd htot
    obtain ⟨e1, e2, e3⟩ := stepGo_spec ws.length ws i rfl hnd
    rcases hcase : stepGo ws.length ws i with ⟨a, ws2, i2⟩ | ⟨ws2, i2⟩ | _
    · obtain ⟨hnd2, hmul⟩ := e3 a ws2 i2 hcase
      have hcard : totalItems ws = totalItems ws2 + 1 := by
        have := congrArg Multiset.card hmul
        simpa [Multiset.coe_card, totalItems] using this
      obtain ⟨g1, g2, g3⟩ := ih ws2 i2 hnd2 (by omega)
      have hdrain : drain (fuel + 1) ws i
          = (a :: (drain fuel ws2 i2).1, (drain fuel ws2 i2).2) := by
        rw [drain, muxNext, hcase]
      rw [hdrain]
      refine ⟨g1, ?_, ?_⟩
      · show ((a :: (drain fuel ws2 i2).1 : List α) : Multiset α) = _
        rw [← Multiset.cons_coe, g2, hmul]
      · simp only [List.length_cons, g3]
        omega
    · have hitems := e2 ws2 i2 hcase
      have hdrain : drain (fuel + 1) ws i = ([], DrainEnd.clean) := by
        rw [drain, muxNext, hcase]
      rw [hdrain, hitems]
      refine ⟨rfl, by simp, by simp [totalItems, hitems]⟩
    · exact absurd hcase e1

/-- C8 witness: two workers with three items in total, drained with fuel
4: all items are yielded exactly once and the drain ends cleanly. -/
theorem c8_multiplexer_drains_all_witness :
    (idsOf [((0 : Nat), [(10 : Int), 20]), (1, [30])]).Nodup ∧
    totalItems [((0 : Nat), [(10 : Int), 20]), (1, [30])] < 4 ∧
    ((drain 4 [((0 : Nat), [(10 : Int), 20]), (1, [30])] 0).2 = DrainEnd.clean ∧
      ((drain 4 [((0 : Nat), [(10 : Int), 20]), (1, [30])] 0).1 : Multiset Int)
        = (itemsOf [((0 : Nat), [(10 : Int), 20]), (1, [30])] : Multiset Int) ∧
      (drain 4 [((0 : Nat), [(10 : Int), 20]), (1, [30])] 0).1.length
        = totalItems [((0 : Nat), [(10 : Int), 20]), (1, [30])]) :=
  ⟨by decide, by decide,
    c8_multiplexer_drains_all 4 [((0 : Nat), [(10 : Int), 20]), (1, [30])] 0
      (by decide) (by decide)⟩

end OsuT5
